import Mathlib

/-!
Shallow embedding of the paired-sampling engine of `d-SNE-PyTorch`
(`src/data_loading/datasets.py`, class `PairDataset`), for checking the
design document against the code.

Modelling conventions:
* Images and labels are Lean lists (`List α` for images, `List Nat` for
  labels); a numpy array of index pairs becomes `List (Nat × Nat)`.
* Calls to `np.random.shuffle` are modelled by explicit shuffle-function
  parameters (`shN` on index lists, `shP` on pair lists); theorems that
  depend on a shuffle being a permutation take that as a hypothesis.
* Fallible numpy operations (advanced indexing with out-of-range
  positions, building a rectangular `np.array` from ragged rows) return
  `Option`.
* `np.lexsort((col1, col0))` followed by indexing performs a stable sort
  by first component then second; `List.insertionSort` is a stable sort,
  so it models it exactly for the lexicographic order `pairLe`.
-/

/-- Lexicographic order on index pairs, as produced by
`np.lexsort((arr[:, 1], arr[:, 0]))`: primary key is the first (source)
component, secondary key the second (target) component. -/
def pairLe (p q : Nat × Nat) : Prop :=
  p.1 < q.1 ∨ (p.1 = q.1 ∧ p.2 ≤ q.2)

instance : DecidableRel pairLe :=
  fun p q => inferInstanceAs (Decidable (p.1 < q.1 ∨ (p.1 = q.1 ∧ p.2 ≤ q.2)))

instance : IsTotal (Nat × Nat) pairLe :=
  ⟨by intro p q; unfold pairLe; omega⟩

instance : IsTrans (Nat × Nat) pairLe :=
  ⟨by intro p q r h1 h2; unfold pairLe at *; omega⟩

/-- Model of sorting an index-pair array with
`arr[np.lexsort((arr[:, 1], arr[:, 0]))]` (datasets.py lines 89-90 and
132-134): a stable sort by `(source_position, target_position)`. -/
def lexSort (l : List (Nat × Nat)) : List (Nat × Nat) :=
  List.insertionSort pairLe l

/-- Row-major enumeration of the full `N × M` coordinate grid that
`np.meshgrid(tgt_y, src_y)` (datasets.py line 117) spans: `source` has
shape `(N, M)` with `source[i, j] = src_y[i]` and `target[i, j] = tgt_y[j]`. -/
def gridPairs (N M : Nat) : List (Nat × Nat) :=
  (List.range N).flatMap (fun i => (List.range M).map (fun j => (i, j)))

/-- Model of `np.argwhere(source == target)` (datasets.py line 120):
coordinates `(i, j)` with `src_y[i] == tgt_y[j]`, in row-major order. -/
def intraPairs (srcY tgtY : List Nat) : List (Nat × Nat) :=
  (gridPairs srcY.length tgtY.length).filter
    (fun p => decide (srcY.getD p.1 0 = tgtY.getD p.2 0))

/-- Model of `np.argwhere(source != target)` (datasets.py line 123):
coordinates `(i, j)` with `src_y[i] != tgt_y[j]`, in row-major order. -/
def interPairs (srcY tgtY : List Nat) : List (Nat × Nat) :=
  (gridPairs srcY.length tgtY.length).filter
    (fun p => ! decide (srcY.getD p.1 0 = tgtY.getD p.2 0))

/-- Model of the interclass down-sampling branch of `_create_pairs`
(datasets.py lines 125-134): if `sample_ratio > 0`, shuffle the
interclass pairs, keep the first `sample_ratio * len(intra_pair_idxs)`
of them (a Python slice, so fewer when the list is shorter), and re-sort
them lexicographically; otherwise return the interclass pairs unchanged.
`shP` models the `np.random.shuffle` call. -/
def sampleInterclass (shP : List (Nat × Nat) → List (Nat × Nat))
    (rat : Int) (intraCount : Nat) (inter : List (Nat × Nat)) : List (Nat × Nat) :=
  if 0 < rat then lexSort ((shP inter).take (rat.toNat * intraCount)) else inter

/-- Model of `PairDataset._create_pairs` (datasets.py lines 111-136):
enumerate intraclass and interclass index pairs over the resampled label
sequences, then down-sample the interclass pairs to the configured ratio. -/
def createPairs (shP : List (Nat × Nat) → List (Nat × Nat))
    (rat : Int) (srcY tgtY : List Nat) : List (Nat × Nat) × List (Nat × Nat) :=
  (intraPairs srcY tgtY,
   sampleInterclass shP rat (intraPairs srcY tgtY).length (interPairs srcY tgtY))

/-- Model of datasets.py lines 86-90: concatenate the intraclass and
(sampled) interclass pair arrays and sort the concatenation by
`(source_position, target_position)`. -/
def fullIdxsOf (shP : List (Nat × Nat) → List (Nat × Nat))
    (rat : Int) (srcY tgtY : List Nat) : List (Nat × Nat) :=
  lexSort ((createPairs shP rat srcY tgtY).1 ++ (createPairs shP rat srcY tgtY).2)

/-- Model of `np.where(y == c)[0]`: positions of label value `c` in `y`,
in increasing order. -/
def positionsOf (y : List Nat) (c : Nat) : List Nat :=
  (List.range y.length).filter (fun i => decide (y.getD i 0 = c))

/-- Model of `np.unique(y)` (datasets.py line 96): the distinct label
values, sorted ascending. -/
def uniqueLabels (y : List Nat) : List Nat :=
  (List.insertionSort (fun a b => a ≤ b) y).dedup

/-- Model of `np.array(subset_idx).ravel()` (datasets.py line 105):
building a rectangular integer array from a list of per-class index rows
requires every row to have the same length (with ragged rows numpy either
raises at `np.array` or produces an object array that the subsequent
advanced indexing rejects); when rectangular, `ravel` flattens row-major. -/
def npArrayRavel (ls : List (List Nat)) : Option (List Nat) :=
  if ls.all (fun l => decide (l.length = (ls.headD []).length)) then some ls.flatten
  else none

/-- Model of numpy advanced indexing `X[idxs]` with an integer index
array: fails with `IndexError` when any index is out of range, otherwise
gathers the rows in index order. -/
def npTake [Inhabited α] (X : List α) (idxs : List Nat) : Option (List α) :=
  if idxs.all (fun i => decide (i < X.length)) then
    some (idxs.map (fun i => X.getD i default))
  else none

/-- Model of `PairDataset._resample_data` (datasets.py lines 92-109):
with `N > 0`, split positions by class (`np.unique` order), shuffle each
class's positions, truncate each to at most `N`, flatten via
`np.array(...).ravel()`, shuffle the flattened index list, and gather
`X[idxs], y[idxs]`; with `N <= 0`, return the inputs unchanged.
`sh` models each `np.random.shuffle` call. -/
def resampleData [Inhabited α] (sh : List Nat → List Nat)
    (X : List α) (y : List Nat) (N : Int) : Option (List α × List Nat) :=
  if 0 < N then
    match npArrayRavel
        (((uniqueLabels y).map (fun c => sh (positionsOf y c))).map
          (fun i => i.take N.toNat)) with
    | none => none
    | some idxs0 =>
      match npTake X (sh idxs0), npTake y (sh idxs0) with
      | some Xs, some ys => some (Xs, ys)
      | _, _ => none
  else some (X, y)

/-- State of a constructed `PairDataset` after `__init__` finishes:
the resampled source/target images and labels, the merged sorted pair
index, and the stored transform list (`None` when the `transforms`
parameter was left at its default). -/
structure PairView (α : Type) where
  srcX : List α
  srcY : List Nat
  tgtX : List α
  tgtY : List Nat
  fullIdxs : List (Nat × Nat)
  transforms : Option (List (α → α))

/-- Model of `PairDataset.__init__` (datasets.py lines 74-90), after the
HDF5 arrays have been read: resample each domain, create and merge the
pairs, and store the transforms; `none` models a construction-time
exception (raised inside `_resample_data`). No shape validation between
images and labels is performed. -/
def mkPairDataset [Inhabited α] (shN : List Nat → List Nat)
    (shP : List (Nat × Nat) → List (Nat × Nat))
    (srcX : List α) (srcY : List Nat) (tgtX : List α) (tgtY : List Nat)
    (rat srcNum tgtNum : Int) (tr : Option (List (α → α))) : Option (PairView α) :=
  match resampleData shN srcX srcY srcNum, resampleData shN tgtX tgtY tgtNum with
  | some sp, some tp =>
      some ⟨sp.1, sp.2, tp.1, tp.2, fullIdxsOf shP rat sp.2 tp.2, tr⟩
  | _, _ => none

/-- Errors `PairDataset.__getitem__` can raise: numpy `IndexError` for an
out-of-range position, and the `TypeError` from iterating over a
non-iterable `transforms` attribute. -/
inductive GetError where
  | indexOutOfRange
  | transformsNotIterable
deriving DecidableEq

/-- Model of indexing a numpy array with a (possibly negative) Python
integer, as in `self.full_idxs[idx]` (datasets.py line 144): a negative
index counts from the end; an index outside `[-len, len)` raises
`IndexError`. -/
def npGetInt (l : List α) (i : Int) : Option α :=
  if 0 ≤ (if i < 0 then (l.length : Int) + i else i) ∧
      (if i < 0 then (l.length : Int) + i else i) < (l.length : Int) then
    l[(if i < 0 then (l.length : Int) + i else i).toNat]?
  else none

/-- Model of the transform loop of `__getitem__` (datasets.py lines
149-150) on one image: apply each configured transform left to right. -/
def applyTransforms (ts : List (α → α)) (x : α) : α :=
  ts.foldl (fun a f => f a) x

/-- State-passing model of `PairDataset.__getitem__` (datasets.py lines
142-152): resolve `full_idxs[idx]` to `(src_idx, tgt_idx)`, fetch the
images and labels at those positions, and run each transform over both
images. The method assigns no attribute of `self`, so every branch of the
translation returns the incoming state; transforms are Lean functions,
hence pure. Error order follows Python evaluation order: the index
lookups run before the transform loop. -/
def getItemRun (v : PairView α) (idx : Int) :
    PairView α × Except GetError (α × Nat × α × Nat) :=
  match npGetInt v.fullIdxs idx with
  | none => (v, Except.error GetError.indexOutOfRange)
  | some st =>
    match v.srcX[st.1]?, v.srcY[st.1]?, v.tgtX[st.2]?, v.tgtY[st.2]? with
    | some xs, some ys, some xt, some yt =>
      match v.transforms with
      | none => (v, Except.error GetError.transformsNotIterable)
      | some ts =>
          (v, Except.ok (applyTransforms ts xs, ys, applyTransforms ts xt, yt))
    | _, _, _, _ => (v, Except.error GetError.indexOutOfRange)

/-- The value returned by `PairDataset.__getitem__`. -/
def getItem (v : PairView α) (idx : Int) : Except GetError (α × Nat × α × Nat) :=
  (getItemRun v idx).2

/-- The concrete view of the design document's worked example (§8):
source labels `[0,0,1]`, target labels `[0,1,1]`, caps and ratio
disabled (`-1`), an empty transform list; images are taken to be the
sample positions themselves. -/
def exampleView : PairView Nat :=
  ⟨[0, 1, 2], [0, 0, 1], [0, 1, 2], [0, 1, 1],
   fullIdxsOf (fun l => l) (-1) [0, 0, 1] [0, 1, 1], some []⟩

/-! ### Helper lemmas about the grid enumeration -/

theorem mem_gridPairs {N M : Nat} {p : Nat × Nat} :
    p ∈ gridPairs N M ↔ p.1 < N ∧ p.2 < M := by
  obtain ⟨i, j⟩ := p
  simp only [gridPairs, List.mem_flatMap, List.mem_map, List.mem_range, Prod.mk.injEq]
  constructor
  · rintro ⟨a, ha, b, hb, rfl, rfl⟩
    exact ⟨ha, hb⟩
  · rintro ⟨hi, hj⟩
    exact ⟨i, hi, j, hj, rfl, rfl⟩

theorem gridPairs_length (N M : Nat) : (gridPairs N M).length = N * M := by
  induction N with
  | zero => simp [gridPairs]
  | succ n ih =>
      rw [gridPairs, List.range_succ, List.flatMap_append] at *
      simp only [List.length_append, List.flatMap_cons, List.flatMap_nil, List.append_nil,
        List.length_map, List.length_range] at *
      rw [ih]
      ring

theorem gridPairs_nodup (N M : Nat) : (gridPairs N M).Nodup := by
  unfold gridPairs
  rw [List.nodup_flatMap]
  constructor
  · intro i _
    exact (List.nodup_range M).map (fun a b h => by simpa using congrArg Prod.snd h)
  · refine List.Pairwise.imp ?_ (List.pairwise_lt_range N)
    intro a b hab
    intro p hpa hpb
    simp only [Function.onFun, List.mem_map, List.mem_range] at hpa hpb
    obtain ⟨j, _, rfl⟩ := hpa
    obtain ⟨k, _, hk⟩ := hpb
    exact absurd (congrArg Prod.fst hk).symm (Nat.ne_of_lt hab)

theorem filter_length_partition (l : List β) (p : β → Bool) :
    (l.filter p).length + (l.filter (fun a => ! p a)).length = l.length := by
  induction l with
  | nil => rfl
  | cons a l ih =>
      by_cases h : p a = true <;> simp [List.filter_cons, h, ← ih] <;> omega

theorem mem_intraPairs {srcY tgtY : List Nat} {i j : Nat} :
    (i, j) ∈ intraPairs srcY tgtY ↔
      i < srcY.length ∧ j < tgtY.length ∧ srcY.getD i 0 = tgtY.getD j 0 := by
  simp only [intraPairs, List.mem_filter, mem_gridPairs, decide_eq_true_eq]
  tauto

theorem mem_interPairs {srcY tgtY : List Nat} {i j : Nat} :
    (i, j) ∈ interPairs srcY tgtY ↔
      i < srcY.length ∧ j < tgtY.length ∧ srcY.getD i 0 ≠ tgtY.getD j 0 := by
  simp only [interPairs, List.mem_filter, mem_gridPairs, Bool.not_eq_true',
    decide_eq_false_iff_not]
  tauto

theorem intraPairs_nodup (srcY tgtY : List Nat) : (intraPairs srcY tgtY).Nodup :=
  (gridPairs_nodup _ _).filter _

theorem interPairs_nodup (srcY tgtY : List Nat) : (interPairs srcY tgtY).Nodup :=
  (gridPairs_nodup _ _).filter _

theorem intraPairs_length_add_interPairs_length (srcY tgtY : List Nat) :
    (intraPairs srcY tgtY).length + (interPairs srcY tgtY).length =
      srcY.length * tgtY.length := by
  rw [intraPairs, interPairs, filter_length_partition, gridPairs_length]

/-! ### Helper lemmas about `lexSort` and `sampleInterclass` -/

theorem lexSort_perm (l : List (Nat × Nat)) : (lexSort l).Perm l :=
  List.perm_insertionSort pairLe l

theorem lexSort_sorted (l : List (Nat × Nat)) : List.Sorted pairLe (lexSort l) :=
  List.sorted_insertionSort pairLe l

theorem sampleInterclass_subset {shP : List (Nat × Nat) → List (Nat × Nat)}
    (hshP : ∀ l, (shP l).Perm l) (rat : Int) (intraCount : Nat)
    (inter : List (Nat × Nat)) :
    ∀ p ∈ sampleInterclass shP rat intraCount inter, p ∈ inter := by
  intro p hp
  unfold sampleInterclass at hp
  by_cases h : 0 < rat
  · rw [if_pos h] at hp
    exact (hshP inter).mem_iff.mp (List.take_subset _ _ ((lexSort_perm _).mem_iff.mp hp))
  · rwa [if_neg h] at hp

theorem sampleInterclass_nodup {shP : List (Nat × Nat) → List (Nat × Nat)}
    (hshP : ∀ l, (shP l).Perm l) (rat : Int) (intraCount : Nat)
    {inter : List (Nat × Nat)} (hnd : inter.Nodup) :
    (sampleInterclass shP rat intraCount inter).Nodup := by
  unfold sampleInterclass
  by_cases h : 0 < rat
  · rw [if_pos h]
    exact ((lexSort_perm _).nodup_iff).mpr
      (((hshP inter).nodup_iff.mpr hnd).sublist (List.take_sublist _ _))
  · rwa [if_neg h]

theorem sampleInterclass_length_pos {shP : List (Nat × Nat) → List (Nat × Nat)}
    (hshP : ∀ l, (shP l).Perm l) {rat : Int} (hr : 0 < rat) (intraCount : Nat)
    (inter : List (Nat × Nat)) :
    (sampleInterclass shP rat intraCount inter).length =
      min (rat.toNat * intraCount) inter.length := by
  unfold sampleInterclass
  rw [if_pos hr, (lexSort_perm _).length_eq, List.length_take, (hshP inter).length_eq]

theorem sampleInterclass_nonpos {shP : List (Nat × Nat) → List (Nat × Nat)}
    {rat : Int} (hr : rat ≤ 0) (intraCount : Nat) (inter : List (Nat × Nat)) :
    sampleInterclass shP rat intraCount inter = inter := by
  unfold sampleInterclass
  rw [if_neg (by omega)]

/-! ### Helper lemmas about the merged index -/

theorem fullIdxsOf_length {shP : List (Nat × Nat) → List (Nat × Nat)}
    (rat : Int) (srcY tgtY : List Nat) :
    (fullIdxsOf shP rat srcY tgtY).length =
      (createPairs shP rat srcY tgtY).1.length +
        (createPairs shP rat srcY tgtY).2.length := by
  rw [fullIdxsOf, (lexSort_perm _).length_eq, List.length_append]

theorem fullIdxsOf_sorted {shP : List (Nat × Nat) → List (Nat × Nat)}
    (rat : Int) (srcY tgtY : List Nat) :
    List.Sorted pairLe (fullIdxsOf shP rat srcY tgtY) :=
  lexSort_sorted _

theorem mem_fullIdxsOf {shP : List (Nat × Nat) → List (Nat × Nat)}
    {rat : Int} {srcY tgtY : List Nat} {p : Nat × Nat} :
    p ∈ fullIdxsOf shP rat srcY tgtY ↔
      p ∈ intraPairs srcY tgtY ∨
        p ∈ sampleInterclass shP rat (intraPairs srcY tgtY).length (interPairs srcY tgtY) := by
  rw [fullIdxsOf, (lexSort_perm _).mem_iff, List.mem_append, createPairs]

theorem fullIdxsOf_nodup {shP : List (Nat × Nat) → List (Nat × Nat)}
    (hshP : ∀ l, (shP l).Perm l) (rat : Int) (srcY tgtY : List Nat) :
    (fullIdxsOf shP rat srcY tgtY).Nodup := by
  rw [fullIdxsOf, (lexSort_perm _).nodup_iff, List.nodup_append, createPairs]
  refine ⟨intraPairs_nodup _ _, sampleInterclass_nodup hshP _ _ (interPairs_nodup _ _), ?_⟩
  rintro ⟨i, j⟩ hpintra hpinter
  have h1 := mem_intraPairs.mp hpintra
  have h2 := mem_interPairs.mp (sampleInterclass_subset hshP _ _ _ _ hpinter)
  exact h2.2.2 h1.2.2

theorem fullIdxsOf_bounds {shP : List (Nat × Nat) → List (Nat × Nat)}
    (hshP : ∀ l, (shP l).Perm l) (rat : Int) (srcY tgtY : List Nat) :
    ∀ p ∈ fullIdxsOf shP rat srcY tgtY, p.1 < srcY.length ∧ p.2 < tgtY.length := by
  rintro ⟨i, j⟩ hp
  rcases mem_fullIdxsOf.mp hp with h | h
  · have := mem_intraPairs.mp h
    exact ⟨this.1, this.2.1⟩
  · have := mem_interPairs.mp (sampleInterclass_subset hshP _ _ _ _ h)
    exact ⟨this.1, this.2.1⟩

/-! ### Helper lemmas about `resampleData` -/

theorem resampleData_nonpos [Inhabited α] (sh : List Nat → List Nat)
    (X : List α) (y : List Nat) {N : Int} (h : N ≤ 0) :
    resampleData sh X y N = some (X, y) := by
  unfold resampleData
  rw [if_neg (by omega)]

theorem npTake_length [Inhabited α] {X : List α} {idxs : List Nat} {Xs : List α}
    (h : npTake X idxs = some Xs) : Xs.length = idxs.length := by
  unfold npTake at h
  split at h
  · rw [← Option.some.inj h, List.length_map]
  · exact absurd h (by simp)

theorem resampleData_length_eq [Inhabited α] {sh : List Nat → List Nat}
    {X : List α} {y : List Nat} {N : Int} {Xs : List α} {ys : List Nat}
    (hxy : X.length = y.length)
    (h : resampleData sh X y N = some (Xs, ys)) :
    Xs.length = ys.length := by
  unfold resampleData at h
  split at h
  · split at h
    · exact absurd h (by simp)
    · split at h
      · rename_i idxs0 heq Xs' ys' h1 h2
        simp only [Option.some.injEq, Prod.mk.injEq] at h
        obtain ⟨rfl, rfl⟩ := h
        rw [npTake_length h1, npTake_length h2]
      · exact absurd h (by simp)
  · simp only [Option.some.injEq, Prod.mk.injEq] at h
    obtain ⟨rfl, rfl⟩ := h
    exact hxy

/-! ### Helper lemmas about `npGetInt` and `getItemRun` -/

theorem npGetInt_mem {l : List α} {i : Int} {a : α} (h : npGetInt l i = some a) :
    a ∈ l := by
  unfold npGetInt at h
  split at h <;> split at h <;>
    first
    | exact List.getElem?_mem h
    | exact absurd h (by simp)

theorem npGetInt_in_range {l : List α} {i : Int}
    (h1 : -(l.length : Int) ≤ i) (h2 : i < (l.length : Int)) :
    ∃ a, npGetInt l i = some a := by
  unfold npGetInt
  rw [if_pos (by split <;> omega)]
  have hb : (if i < 0 then (l.length : Int) + i else i).toNat < l.length := by
    split <;> omega
  exact ⟨_, List.getElem?_eq_getElem hb⟩

theorem npGetInt_oob {l : List α} {i : Int}
    (h : i < -(l.length : Int) ∨ (l.length : Int) ≤ i) : npGetInt l i = none := by
  unfold npGetInt
  have hc : ¬(0 ≤ (if i < 0 then (l.length : Int) + i else i) ∧
      (if i < 0 then (l.length : Int) + i else i) < (l.length : Int)) := by
    split <;> omega
  rw [if_neg hc]

theorem getItemRun_fst (v : PairView α) (idx : Int) : (getItemRun v idx).1 = v := by
  unfold getItemRun
  split
  · rfl
  · split
    · split <;> rfl
    · rfl

/-! ### Claim theorems -/

/-- C1: for any label sequences `src_y` (length `N`) and `tgt_y` (length
`M`), the pair enumeration of `_create_pairs` partitions the `N * M`
comparison grid: the intraclass list holds exactly the pairs `(i, j)`
with `src_y[i] == tgt_y[j]`, the interclass list exactly those with
unequal labels, the two are disjoint, and their lengths sum to `N * M`. -/
theorem pair_enumeration_partitions_grid (srcY tgtY : List Nat) :
    (∀ i j, (i, j) ∈ intraPairs srcY tgtY ↔
        i < srcY.length ∧ j < tgtY.length ∧ srcY.getD i 0 = tgtY.getD j 0) ∧
    (∀ i j, (i, j) ∈ interPairs srcY tgtY ↔
        i < srcY.length ∧ j < tgtY.length ∧ srcY.getD i 0 ≠ tgtY.getD j 0) ∧
    (∀ p, ¬(p ∈ intraPairs srcY tgtY ∧ p ∈ interPairs srcY tgtY)) ∧
    (intraPairs srcY tgtY).length + (interPairs srcY tgtY).length =
      srcY.length * tgtY.length := by
  refine ⟨fun i j => mem_intraPairs, fun i j => mem_interPairs, ?_,
    intraPairs_length_add_interPairs_length srcY tgtY⟩
  rintro ⟨i, j⟩ ⟨h1, h2⟩
  exact (mem_interPairs.mp h2).2.2 (mem_intraPairs.mp h1).2.2

/-- Witness for C1 at the design document's worked example. -/
theorem pair_enumeration_partitions_grid_witness :
    (intraPairs [0, 0, 1] [0, 1, 1]).length + (interPairs [0, 0, 1] [0, 1, 1]).length =
      ([0, 0, 1] : List Nat).length * ([0, 1, 1] : List Nat).length :=
  (pair_enumeration_partitions_grid [0, 0, 1] [0, 1, 1]).2.2.2

/-- C2: for a duplicate-free interclass pair set, intraclass count `K`
and ratio `R`: with `R <= 0` the set is returned unchanged; with `R > 0`
the result is a subset of the input of size exactly
`min(R * K, |inter|)` with no element repeated, for any permutation the
shuffle draws. -/
theorem ratio_sampler_bound (inter : List (Nat × Nat)) (K : Nat) (R : Int)
    (shP : List (Nat × Nat) → List (Nat × Nat)) (hshP : ∀ l, (shP l).Perm l)
    (hnd : inter.Nodup) :
    (R ≤ 0 → sampleInterclass shP R K inter = inter) ∧
    (0 < R →
      (∀ p ∈ sampleInterclass shP R K inter, p ∈ inter) ∧
      (sampleInterclass shP R K inter).length = min (R.toNat * K) inter.length ∧
      (sampleInterclass shP R K inter).Nodup) :=
  ⟨fun h => sampleInterclass_nonpos h K inter,
   fun h => ⟨sampleInterclass_subset hshP R K inter,
     sampleInterclass_length_pos hshP h K inter,
     sampleInterclass_nodup hshP R K hnd⟩⟩

/-- Witness for C2: three interclass pairs, one intraclass pair, ratio 2,
identity draw. -/
theorem ratio_sampler_bound_witness :
    (sampleInterclass (fun l => l) 2 1 [(0, 1), (1, 0), (2, 0)]).length =
      min ((2 : Int).toNat * 1) ([(0, 1), (1, 0), (2, 0)] : List (Nat × Nat)).length :=
  (((ratio_sampler_bound [(0, 1), (1, 0), (2, 0)] 1 2 (fun l => l)
      (fun l => List.Perm.refl l) (by decide)).2 (by decide)).2).1

/-- C3: for every constructed view, the merged index has length
`len(intra) + len(sampled inter)`, is sorted in non-decreasing
`(source_position, target_position)` lexicographic order, and contains
no duplicate pair record. -/
theorem full_index_length_sorted_nodup (srcY tgtY : List Nat) (rat : Int)
    (shP : List (Nat × Nat) → List (Nat × Nat)) (hshP : ∀ l, (shP l).Perm l) :
    (fullIdxsOf shP rat srcY tgtY).length =
      (intraPairs srcY tgtY).length +
        (sampleInterclass shP rat (intraPairs srcY tgtY).length
          (interPairs srcY tgtY)).length ∧
    List.Sorted pairLe (fullIdxsOf shP rat srcY tgtY) ∧
    (fullIdxsOf shP rat srcY tgtY).Nodup :=
  ⟨fullIdxsOf_length rat srcY tgtY, fullIdxsOf_sorted rat srcY tgtY,
   fullIdxsOf_nodup hshP rat srcY tgtY⟩

/-- Witness for C3 at the worked example with the ratio disabled. -/
theorem full_index_length_sorted_nodup_witness :
    (fullIdxsOf (fun l => l) (-1) [0, 0, 1] [0, 1, 1]).length =
      (intraPairs [0, 0, 1] [0, 1, 1]).length +
        (sampleInterclass (fun l => l) (-1) (intraPairs [0, 0, 1] [0, 1, 1]).length
          (interPairs [0, 0, 1] [0, 1, 1])).length :=
  (full_index_length_sorted_nodup [0, 0, 1] [0, 1, 1] (-1) (fun l => l)
    (fun l => List.Perm.refl l)).1

/-- C4 (code bug): `_resample_data` with cap 2 on labels `[0, 0, 1]`
(class 0 keeps two positions, class 1 keeps one) builds
`np.array(subset_idx)` from ragged rows and fails instead of returning
the per-class `min(cap, count)` subsets its own comment promises. -/
theorem resample_ragged_classes_fails :
    resampleData (fun l => l) ([10, 20, 30] : List Nat) [0, 0, 1] 2 = none := by
  decide

/-- C5 counterexample: on the constructed worked-example view (length 9),
`get(-1)` does not fail with an out-of-range error: numpy negative
indexing resolves `full_idxs[-1]` to the last pair `(2, 2)` and the call
returns the corresponding sample tuple. -/
theorem neg_one_get_succeeds :
    (mkPairDataset (fun l => l) (fun l => l) [0, 1, 2] [0, 0, 1] [0, 1, 2] [0, 1, 1]
        (-1) (-1) (-1) (some [])).map (fun v => getItem v (-1)) =
      some (Except.ok (2, 1, 2, 1)) := rfl

/-- C5 amended: for a view whose transforms are an iterable list and
whose index pairs are in bounds, `get(length())` fails with an
out-of-range error, and `get(p)` succeeds exactly for
`-length() <= p < length()` — Python/numpy negative indexing makes
`get(-1)` succeed (returning the last pair's tuple) whenever the view is
non-empty, rather than failing. -/
theorem get_range_semantics (v : PairView α) (ts : List (α → α))
    (htr : v.transforms = some ts)
    (hb : ∀ p ∈ v.fullIdxs, p.1 < v.srcX.length ∧ p.1 < v.srcY.length ∧
        p.2 < v.tgtX.length ∧ p.2 < v.tgtY.length) :
    getItem v (v.fullIdxs.length : Int) = Except.error GetError.indexOutOfRange ∧
    ∀ idx : Int, (∃ r, getItem v idx = Except.ok r) ↔
      -(v.fullIdxs.length : Int) ≤ idx ∧ idx < (v.fullIdxs.length : Int) := by
  constructor
  · unfold getItem getItemRun
    rw [npGetInt_oob (Or.inr (le_refl _))]
  · intro idx
    constructor
    · rintro ⟨r, hr⟩
      by_contra hc
      have hn : npGetInt v.fullIdxs idx = none := by
        apply npGetInt_oob
        omega
      unfold getItem getItemRun at hr
      rw [hn] at hr
      exact absurd hr (by simp)
    · rintro ⟨h1, h2⟩
      obtain ⟨st, hst⟩ := npGetInt_in_range h1 h2
      obtain ⟨s, t⟩ := st
      obtain ⟨b1, b2, b3, b4⟩ := hb (s, t) (npGetInt_mem hst)
      refine ⟨(applyTransforms ts (v.srcX.get ⟨s, b1⟩), v.srcY.get ⟨s, b2⟩,
               applyTransforms ts (v.tgtX.get ⟨t, b3⟩), v.tgtY.get ⟨t, b4⟩), ?_⟩
      simp [getItem, getItemRun, hst, List.getElem?_eq_getElem, b1, b2, b3, b4, htr]

/-- Witness for C5's amended statement at the worked-example view. -/
theorem get_range_semantics_witness :
    getItem exampleView (exampleView.fullIdxs.length : Int) =
      Except.error GetError.indexOutOfRange :=
  (get_range_semantics exampleView [] rfl (by decide)).1

/-- C6: every pair `(s, t)` stored in the final index of a constructed
view (matching image/label lengths per domain) satisfies
`s < len(resampled source arrays)` and `t < len(resampled target
arrays)`; being naturals, `0 <= s` and `0 <= t` hold by type. -/
theorem pair_index_in_bounds [Inhabited α] (shN : List Nat → List Nat)
    (shP : List (Nat × Nat) → List (Nat × Nat)) (hshP : ∀ l, (shP l).Perm l)
    (srcX : List α) (srcY : List Nat) (tgtX : List α) (tgtY : List Nat)
    (rat srcNum tgtNum : Int) (tr : Option (List (α → α)))
    (hs : srcX.length = srcY.length) (ht : tgtX.length = tgtY.length)
    (v : PairView α)
    (hv : mkPairDataset shN shP srcX srcY tgtX tgtY rat srcNum tgtNum tr = some v) :
    ∀ p ∈ v.fullIdxs, p.1 < v.srcX.length ∧ p.1 < v.srcY.length ∧
      p.2 < v.tgtX.length ∧ p.2 < v.tgtY.length := by
  unfold mkPairDataset at hv
  split at hv
  · rename_i sp tp h1 h2
    simp only [Option.some.injEq] at hv
    subst hv
    intro p hp
    obtain ⟨hb1, hb2⟩ := fullIdxsOf_bounds hshP rat sp.2 tp.2 p hp
    have e1 : sp.1.length = sp.2.length := resampleData_length_eq hs h1
    have e2 : tp.1.length = tp.2.length := resampleData_length_eq ht h2
    show p.1 < sp.1.length ∧ p.1 < sp.2.length ∧ p.2 < tp.1.length ∧ p.2 < tp.2.length
    refine ⟨?_, hb1, ?_, hb2⟩ <;> omega
  · exact absurd hv (by simp)

/-- Witness for C6 at the worked-example construction, pair `(2, 2)`. -/
theorem pair_index_in_bounds_witness :
    2 < exampleView.srcX.length ∧ 2 < exampleView.srcY.length ∧
      2 < exampleView.tgtX.length ∧ 2 < exampleView.tgtY.length :=
  pair_index_in_bounds (fun l => l) (fun l => l) (fun l => List.Perm.refl l)
    [0, 1, 2] [0, 0, 1] [0, 1, 2] [0, 1, 1] (-1) (-1) (-1) (some []) rfl rfl
    exampleView (by rfl) (2, 2) (by decide)

/-- C7: `__getitem__` writes no attribute of the view, so on the state
it leaves behind a second call with the same position returns the
identical four-tuple (transforms are Lean functions, hence pure). -/
theorem getitem_idempotent (v : PairView α) (idx : Int) :
    (getItemRun (getItemRun v idx).1 idx).2 = (getItemRun v idx).2 ∧
      (getItemRun v idx).1 = v := by
  rw [getItemRun_fst]
  exact ⟨rfl, rfl⟩

/-- C8: `_resample_data` with a non-positive cap returns the inputs
unchanged in value — no subsetting, no shuffling. -/
theorem resample_nocap_passthrough [Inhabited α] (sh : List Nat → List Nat)
    (X : List α) (y : List Nat) (N : Int) (h : N ≤ 0) :
    resampleData sh X y N = some (X, y) :=
  resampleData_nonpos sh X y h

/-- Witness for C8 with cap `-1`, the source default. -/
theorem resample_nocap_passthrough_witness :
    resampleData (fun l => l) ([3, 1] : List Nat) [0, 1] (-1) = some ([3, 1], [0, 1]) :=
  resample_nocap_passthrough (fun l => l) [3, 1] [0, 1] (-1) (by decide)

/-- C9 counterexample: a domain whose image sequence (length 1) and
label sequence (length 3) disagree is accepted — construction completes
with no shape-mismatch error. -/
theorem mismatched_construction_succeeds :
    (mkPairDataset (fun l => l) (fun l => l) ([4] : List Nat) [0, 0, 1] [9] [1]
        (-1) (-1) (-1) none).isSome = true := rfl

/-- C9 amended: `__init__` performs no shape validation; with
non-positive per-class caps construction always succeeds, even when a
domain's image and label sequence lengths disagree. -/
theorem construction_no_shape_check [Inhabited α] (shN : List Nat → List Nat)
    (shP : List (Nat × Nat) → List (Nat × Nat))
    (srcX : List α) (srcY : List Nat) (tgtX : List α) (tgtY : List Nat)
    (rat : Int) {srcNum tgtNum : Int} (tr : Option (List (α → α)))
    (h1 : srcNum ≤ 0) (h2 : tgtNum ≤ 0) :
    (mkPairDataset shN shP srcX srcY tgtX tgtY rat srcNum tgtNum tr).isSome = true := by
  unfold mkPairDataset
  rw [resampleData_nonpos shN srcX srcY h1, resampleData_nonpos shN tgtX tgtY h2]
  rfl

/-- Witness for C9's amended statement on mismatched input lengths. -/
theorem construction_no_shape_check_witness :
    (mkPairDataset (fun l => l) (fun l => l) ([5] : List Nat) [0, 0] [7] [0]
        (-1) (-1) (-1) (some [])).isSome = true :=
  construction_no_shape_check (fun l => l) (fun l => l) [5] [0, 0] [7] [0] (-1)
    (some []) (by decide) (by decide)

/-- C10: when the stored transforms are `None` (the constructor
default), every `__getitem__` call raises — either numpy's `IndexError`
first, or the `TypeError` from iterating `None`; `get` can only succeed
when an iterable transform list was supplied. -/
theorem get_fails_without_transforms (v : PairView α) (idx : Int)
    (h : v.transforms = none) :
    ∃ e, getItem v idx = Except.error e := by
  rcases hn : npGetInt v.fullIdxs idx with _ | st
  · exact ⟨GetError.indexOutOfRange, by simp [getItem, getItemRun, hn]⟩
  · obtain ⟨s, t⟩ := st
    rcases h1 : v.srcX[s]? with _ | xs
    · exact ⟨GetError.indexOutOfRange, by simp [getItem, getItemRun, hn, h1]⟩
    · rcases h2 : v.srcY[s]? with _ | ys
      · exact ⟨GetError.indexOutOfRange, by simp [getItem, getItemRun, hn, h1, h2]⟩
      · rcases h3 : v.tgtX[t]? with _ | xt
        · exact ⟨GetError.indexOutOfRange,
            by simp [getItem, getItemRun, hn, h1, h2, h3]⟩
        · rcases h4 : v.tgtY[t]? with _ | yt
          · exact ⟨GetError.indexOutOfRange,
              by simp [getItem, getItemRun, hn, h1, h2, h3, h4]⟩
          · exact ⟨GetError.transformsNotIterable,
              by simp [getItem, getItemRun, hn, h1, h2, h3, h4, h]⟩

/-- Witness for C10 at the worked example with the default (`None`)
transforms. -/
theorem get_fails_without_transforms_witness :
    ∃ e, getItem
        ⟨[0, 1, 2], [0, 0, 1], [0, 1, 2], [0, 1, 1],
         fullIdxsOf (fun l => l) (-1) [0, 0, 1] [0, 1, 1], none⟩ 0 =
      Except.error e :=
  get_fails_without_transforms _ 0 rfl
